import Mathlib

/-!
Verification development for the gamex backend (src/main.py): a FastAPI
service with a Svix webhook handler upserting `User` rows, two read-only
game-catalog endpoints over `games/*/data.json`, and a per-user lookup
endpoint.  The Python handlers are shallowly embedded as pure Lean
functions over explicit database and filesystem states.
-/

namespace GamexBackend

/-- JSON values, as produced by Python's `json.loads`. -/
inductive Json where
  | null : Json
  | bool (b : Bool) : Json
  | num (n : Int) : Json
  | str (s : String) : Json
  | arr (elems : List Json) : Json
  | obj (fields : List (String × Json)) : Json

/-- A Python dict with string keys, in insertion order (keys unique in any
dict built by `json.loads` or by `Dict.set` from a unique-keyed dict). -/
abbrev Dict := List (String × Json)

/-- Dict lookup: the value of the first binding of key `k`, if any. -/
def Dict.get? : Dict → String → Option Json
  | [], _ => none
  | kv :: rest, k => if kv.1 == k then some kv.2 else Dict.get? rest k

/-- Python dict assignment `d[k] = v`: overwrite the first binding of `k`
in place, or append a new binding at the end. -/
def Dict.set : Dict → String → Json → Dict
  | [], k, v => [(k, v)]
  | kv :: rest, k, v =>
      if kv.1 == k then (k, v) :: rest else kv :: Dict.set rest k v

/-- Python `d1.update(d2)`: assign each binding of `d2` into `d1`, in
order. -/
def Dict.update (d1 d2 : Dict) : Dict :=
  d2.foldl (fun acc kv => Dict.set acc kv.1 kv.2) d1

/-- The value of the last binding of key `k` in `d`, if any (for a
unique-keyed dict this is the unique binding). -/
def Dict.getLast? : Dict → String → Option Json
  | [], _ => none
  | kv :: rest, k =>
      match Dict.getLast? rest k with
      | some v => some v
      | none => if kv.1 == k then some kv.2 else none

/-- State of the `games/` directory tree: the files matching
`games/*/data.json`, as pairs of the subdirectory name and the file's
parsed JSON object, listed in the traversal order of
`Path("./games").rglob("data.json")` (deterministic for a fixed tree).
Parsing is assumed to succeed; a malformed file raises out of scope. -/
abbrev GamesFS := List (String × Dict)

/-- The seed dict `{"__comment__": "Combined data"}` of `get_combined_json`
(src/main.py line 87). -/
def seedDict : Dict := [("__comment__", Json.str "Combined data")]

/-- Embeds `get_combined_json` (src/main.py lines 86-96), the handler of
`GET /games/`: starting from `seedDict`, `dict.update` each `data.json`
file's parsed object into the accumulator in traversal order. -/
def get_combined_json (fs : GamesFS) : Dict :=
  fs.foldl (fun acc file => Dict.update acc file.2) seedDict

/-- Embeds `get_json_file` (src/main.py lines 100-107), the handler of
`GET /games/{dir_name}`: if `games/<dir_name>/data.json` exists return its
parsed contents, else `none` (modelling `HTTPException 404`). -/
def get_json_file (dir_name : String) (fs : GamesFS) : Option Dict :=
  match fs.find? (fun file => file.1 == dir_name) with
  | some file => some file.2
  | none => none

/-- Embeds the `User` model (src/main.py lines 26-31), one row of the
`users` table.  `id` is `Option String` because the handler stores
`user_data.get("id")`, which is Python `None` when the payload has no
`id` key. -/
structure User where
  id : Option String
  email : String
  username : Option String
  profile_picture_url : Option String
deriving Repr, DecidableEq

/-- The `users` table, as the list of its rows in insertion order. -/
abbrev DB := List User

/-- One entry of the payload's `email_addresses` array. -/
structure EmailEntry where
  email_address : String
deriving Repr, DecidableEq

/-- The `data.object` user payload of a webhook event; each field models
`user_data.get(...)`, `none` standing for an absent key.
`email_addresses` is `none` when the key is absent (so that indexing it
is a `TypeError`) and `some []` when it is an empty array. -/
structure UserPayload where
  id : Option String
  email_addresses : Option (List EmailEntry)
  username : Option String
  profile_image_url : Option String
deriving Repr, DecidableEq

/-- The verified JSON body of a webhook request: `type` is
`json_payload.get("type")` and `dataObject` is the result of
`json_payload.get("data", ...).get("object", ...)` with empty-dict
defaults, so an absent `data` or `object` yields the all-absent payload. -/
structure JsonPayload where
  type : Option String
  dataObject : UserPayload
deriving Repr, DecidableEq

/-- A `POST /webhook` request.  The svix library call
`Webhook(SVIX_SECRET).verify(payload, headers)` lives outside src/, so its
outcome is modelled abstractly: `signatureValid` is true exactly when
`verify` succeeds and returns `payload` (it raises
`WebhookVerificationError` otherwise). -/
structure WebhookRequest where
  signatureValid : Bool
  payload : JsonPayload
deriving Repr, DecidableEq

/-- Outcome of the webhook handler: `success` is `200 {"status":
"success"}`, `clientError c` is `HTTPException(status_code=c)`, and
`crash` is an unhandled Python exception escaping the handler (e.g.
`TypeError`/`IndexError` from `user_data.get("email_addresses")[0]`). -/
inductive WebhookResult where
  | success : WebhookResult
  | clientError (code : Nat) : WebhookResult
  | crash : WebhookResult
deriving Repr, DecidableEq

/-- The test `event_type in ["user.created", "user.updated"]`
(src/main.py line 65); `event_type` is `None` when the body has no
`type` key, and `None` is not in the list. -/
def isUserEvent : Option String → Bool
  | some t => t == "user.created" || t == "user.updated"
  | none => false

/-- Embeds the found-branch of the upsert (src/main.py lines 71-75):
`db.query(User).filter(User.id == user_id).first()` returns the first
matching row, whose four fields are then overwritten in place. -/
def updateFirst : DB → Option String → String → Option String → Option String → DB
  | [], _, _, _, _ => []
  | r :: rest, uid, e, u, p =>
      if r.id == uid then
        { r with email := e, username := u, profile_picture_url := p } :: rest
      else
        r :: updateFirst rest uid e u p

/-- Embeds `handle_webhook` (src/main.py lines 48-82).  SQLAlchemy
translates `User.id == None` to `id IS NULL`, so the row lookup compares
`Option String` values directly; `db.commit()` is modelled as always
succeeding. -/
def handle_webhook (req : WebhookRequest) (db : DB) : WebhookResult × DB :=
  if req.signatureValid then
    let event_type := req.payload.type
    let user_data := req.payload.dataObject
    if isUserEvent event_type then
      let user_id := user_data.id
      match user_data.email_addresses with
      | none => (.crash, db)
      | some [] => (.crash, db)
      | some (entry :: _) =>
          let email := entry.email_address
          let username := user_data.username
          let profile_picture_url := user_data.profile_image_url
          if db.any (fun r => r.id == user_id) then
            (.success, updateFirst db user_id email username profile_picture_url)
          else
            (.success, db ++ [⟨user_id, email, username, profile_picture_url⟩])
    else
      (.success, db)
  else
    (.clientError 400, db)

/-- The flat JSON object returned by `get_user_data` (src/main.py lines
115-120). -/
structure UserDataResponse where
  id : Option String
  email : String
  username : Option String
  profile_picture_url : Option String
deriving Repr, DecidableEq

/-- Embeds `get_user_data` (src/main.py lines 112-122), the handler of
`GET /user/{user_id}/data`: look up the first row with the given id and
return its four fields, or `none` (modelling `HTTPException 404`); the
database is returned unchanged. -/
def get_user_data (user_id : String) (db : DB) : Option UserDataResponse × DB :=
  match db.find? (fun r => r.id == some user_id) with
  | some r => (some ⟨r.id, r.email, r.username, r.profile_picture_url⟩, db)
  | none => (none, db)

/-- The database produced by handling a sequence of webhook requests
starting from the empty `users` table. -/
def processAll (reqs : List WebhookRequest) : DB :=
  reqs.foldl (fun db req => (handle_webhook req db).2) []

/-- Last-write-wins reading of a key across a list of dicts merged in
order: the value of `k` in the last dict that binds it. -/
def lastWins : List Dict → String → Option Json
  | [], _ => none
  | d :: rest, k =>
      match lastWins rest k with
      | some v => some v
      | none => Dict.getLast? d k

/-! ### Lemmas about dict assignment and update -/

theorem Dict.get?_set (d : Dict) (k k' : String) (v : Json) :
    (Dict.set d k v).get? k' = if k' = k then some v else d.get? k' := by
  induction d with
  | nil =>
      by_cases h : k' = k
      · subst h; simp [Dict.set, Dict.get?]
      · simp [Dict.set, Dict.get?, h, Ne.symm h]
  | cons kv rest ih =>
      by_cases hk : kv.1 = k
      · by_cases h : k' = k
        · subst h
          simp [Dict.set, Dict.get?, hk]
        · simp [Dict.set, Dict.get?, hk, h, Ne.symm h]
      · by_cases h : k' = k
        · subst h
          simp [Dict.set, Dict.get?, hk, ih, Ne.symm hk]
        · simp only [Dict.set, Dict.get?, beq_iff_eq, if_neg hk]
          by_cases hkv : kv.1 = k'
          · simp [Dict.get?, hkv, h]
          · simp [Dict.get?, hkv, ih, h]

theorem Dict.getLast?_cons (kv : String × Json) (rest : Dict) (k : String) :
    Dict.getLast? (kv :: rest) k =
      match Dict.getLast? rest k with
      | some v => some v
      | none => if kv.1 = k then some kv.2 else none := by
  simp only [Dict.getLast?, beq_iff_eq]

theorem Dict.get?_update (d1 d2 : Dict) (k : String) :
    (Dict.update d1 d2).get? k =
      match Dict.getLast? d2 k with
      | some v => some v
      | none => d1.get? k := by
  induction d2 generalizing d1 with
  | nil => simp [Dict.update, Dict.getLast?]
  | cons kv rest ih =>
      have hstep : Dict.update d1 (kv :: rest) = Dict.update (Dict.set d1 kv.1 kv.2) rest := rfl
      rw [hstep, ih, Dict.getLast?_cons]
      cases hrest : Dict.getLast? rest k with
      | some v => rfl
      | none =>
          rw [Dict.get?_set]
          by_cases h : kv.1 = k
          · simp [h]
          · simp only [if_neg h, if_neg (Ne.symm h)]

theorem get?_foldl_update (ds : List Dict) (d0 : Dict) (k : String) :
    (ds.foldl Dict.update d0).get? k =
      match lastWins ds k with
      | some v => some v
      | none => d0.get? k := by
  induction ds generalizing d0 with
  | nil => simp [lastWins]
  | cons d rest ih =>
      have hstep : (d :: rest).foldl Dict.update d0 = rest.foldl Dict.update (Dict.update d0 d) := rfl
      rw [hstep, ih]
      simp only [lastWins]
      cases hrest : lastWins rest k with
      | some v => rfl
      | none => rw [Dict.get?_update]

theorem get?_get_combined (fs : GamesFS) (k : String) :
    (get_combined_json fs).get? k =
      match lastWins (fs.map Prod.snd) k with
      | some v => some v
      | none => seedDict.get? k := by
  have hmap : get_combined_json fs = (fs.map Prod.snd).foldl Dict.update seedDict := by
    rw [get_combined_json, List.foldl_map]
  rw [hmap, get?_foldl_update]

/-! ### Lemmas about the users table -/

theorem updateFirst_map_id (db : DB) (uid : Option String) (e : String)
    (u p : Option String) :
    (updateFirst db uid e u p).map User.id = db.map User.id := by
  induction db with
  | nil => rfl
  | cons r rest ih =>
      by_cases h : r.id = uid
      · simp [updateFirst, h]
      · simp [updateFirst, h, ih]

theorem find?_updateFirst (db : DB) (uid : Option String) (e : String)
    (u p : Option String) (h : db.any (fun r => r.id == uid) = true) :
    (updateFirst db uid e u p).find? (fun r => r.id == uid) = some ⟨uid, e, u, p⟩ := by
  induction db with
  | nil => simp at h
  | cons r rest ih =>
      by_cases hr : r.id = uid
      · simp [updateFirst, hr, List.find?]
      · have hrest : rest.any (fun r => r.id == uid) = true := by
          simp only [List.any_cons, beq_iff_eq, Bool.or_eq_true] at h
          rcases h with h | h
          · exact absurd (by simpa using h) hr
          · simpa using h
        simp [updateFirst, hr, List.find?, ih hrest]

theorem find?_append_singleton (db : DB) (row : User) (uid : Option String)
    (hany : db.any (fun r => r.id == uid) = false) (hrow : row.id = uid) :
    (db ++ [row]).find? (fun r => r.id == uid) = some row := by
  induction db with
  | nil => simp [List.find?, hrow]
  | cons r rest ih =>
      simp only [List.any_cons, Bool.or_eq_false_iff] at hany
      simp [List.find?, hany.1, ih hany.2]

theorem handle_webhook_map_id_nodup (req : WebhookRequest) (db : DB)
    (h : (db.map User.id).Nodup) :
    (((handle_webhook req db).2).map User.id).Nodup := by
  by_cases hsig : req.signatureValid
  · by_cases hev : isUserEvent req.payload.type
    · cases hmail : req.payload.dataObject.email_addresses with
      | none => simpa [handle_webhook, hsig, hev, hmail] using h
      | some entries =>
          cases entries with
          | nil => simpa [handle_webhook, hsig, hev, hmail] using h
          | cons entry rest =>
              by_cases hany : db.any (fun r => r.id == req.payload.dataObject.id)
              · simpa [handle_webhook, hsig, hev, hmail, hany, updateFirst_map_id] using h
              · have hnotin : req.payload.dataObject.id ∉ db.map User.id := by
                  simp only [Bool.not_eq_true, List.any_eq_false, beq_iff_eq] at hany
                  intro hc
                  rcases List.mem_map.mp hc with ⟨r, hr, hid⟩
                  exact hany r hr hid
                simp [handle_webhook, hsig, hev, hmail, hany, List.nodup_append, h, hnotin]
    · simpa [handle_webhook, hsig, hev] using h
  · simpa [handle_webhook, hsig] using h

theorem processAll_map_id_nodup (reqs : List WebhookRequest) :
    ((processAll reqs).map User.id).Nodup := by
  have haux : ∀ (rs : List WebhookRequest) (db : DB), (db.map User.id).Nodup →
      (((rs.foldl (fun db req => (handle_webhook req db).2) db)).map User.id).Nodup := by
    intro rs
    induction rs with
    | nil => intro db hdb; simpa using hdb
    | cons req rest ih =>
        intro db hdb
        exact ih ((handle_webhook req db).2) (handle_webhook_map_id_nodup req db hdb)
  exact haux reqs [] (by simp)

/-! ### Claim theorems -/

/-- C1: for every `POST /webhook` request whose signature verification
fails, the handler returns a 400 response and the users table is exactly
what it was before the request. -/
theorem webhook_invalid_signature_rejected (payload : JsonPayload) (db : DB) :
    handle_webhook ⟨false, payload⟩ db = (WebhookResult.clientError 400, db) := by
  simp [handle_webhook]

/-- C2: a `user.updated` event whose payload `id` matches an existing row
overwrites the four fields of that row in place (the list of row ids is
unchanged, and the row found under that id afterwards carries exactly the
submitted fields) and never inserts a second row; moreover after any
sequence of webhook requests from the empty table the ids are pairwise
distinct, i.e. at most one row per `id`. -/
theorem webhook_update_overwrites_in_place (db : DB) (i e : String)
    (u p : Option String) (rest : List EmailEntry)
    (h : some i ∈ db.map User.id) :
    ((handle_webhook ⟨true, ⟨some "user.updated", ⟨some i, some (⟨e⟩ :: rest), u, p⟩⟩⟩ db).2).map User.id
        = db.map User.id ∧
    ((handle_webhook ⟨true, ⟨some "user.updated", ⟨some i, some (⟨e⟩ :: rest), u, p⟩⟩⟩ db).2).find?
        (fun r => r.id == some i) = some ⟨some i, e, u, p⟩ ∧
    ∀ reqs : List WebhookRequest, ((processAll reqs).map User.id).Nodup := by
  have hany : db.any (fun r => r.id == some i) = true := by
    rcases List.mem_map.mp h with ⟨r, hr, hid⟩
    exact List.any_eq_true.mpr ⟨r, hr, by simp [hid]⟩
  refine ⟨?_, ?_, fun reqs => processAll_map_id_nodup reqs⟩
  · simp [handle_webhook, isUserEvent, hany, updateFirst_map_id]
  · simp [handle_webhook, isUserEvent, hany, find?_updateFirst db (some i) e u p hany]

/-- Witness for C2 at a concrete one-row table. -/
theorem webhook_update_overwrites_in_place_witness :
    some "u1" ∈ ([⟨some "u1", "old@example.com", none, none⟩] : DB).map User.id ∧
    (((handle_webhook ⟨true, ⟨some "user.updated", ⟨some "u1", some [⟨"new@example.com"⟩], some "neo", none⟩⟩⟩
          [⟨some "u1", "old@example.com", none, none⟩]).2).map User.id
        = ([⟨some "u1", "old@example.com", none, none⟩] : DB).map User.id ∧
      ((handle_webhook ⟨true, ⟨some "user.updated", ⟨some "u1", some [⟨"new@example.com"⟩], some "neo", none⟩⟩⟩
          [⟨some "u1", "old@example.com", none, none⟩]).2).find?
          (fun r => r.id == some "u1") = some ⟨some "u1", "new@example.com", some "neo", none⟩ ∧
      ∀ reqs : List WebhookRequest, ((processAll reqs).map User.id).Nodup) :=
  ⟨by decide,
   webhook_update_overwrites_in_place [⟨some "u1", "old@example.com", none, none⟩]
     "u1" "new@example.com" (some "neo") none [] (by decide)⟩

/-- C3: a validly signed `user.created` event carrying id, email, username
and picture URL returns success, and a subsequent `GET /user/{id}/data`
returns exactly the submitted email, username and picture URL. -/
theorem webhook_created_then_lookup (db : DB) (i e : String)
    (u p : Option String) (rest : List EmailEntry) :
    (handle_webhook ⟨true, ⟨some "user.created", ⟨some i, some (⟨e⟩ :: rest), u, p⟩⟩⟩ db).1
        = WebhookResult.success ∧
    (get_user_data i
        (handle_webhook ⟨true, ⟨some "user.created", ⟨some i, some (⟨e⟩ :: rest), u, p⟩⟩⟩ db).2).1
        = some ⟨some i, e, u, p⟩ := by
  by_cases hany : db.any (fun r => r.id == some i)
  · constructor
    · simp [handle_webhook, isUserEvent, hany]
    · simp [handle_webhook, isUserEvent, hany, get_user_data,
        find?_updateFirst db (some i) e u p hany]
  · constructor
    · simp [handle_webhook, isUserEvent, hany]
    · simp [handle_webhook, isUserEvent, hany, get_user_data,
        find?_append_singleton db ⟨some i, e, u, p⟩ (some i) (by simpa using hany) rfl]

/-- C4 evaluation: on a validly signed `user.created` event whose
`email_addresses` is the empty array (resp. absent), the handler performs
the unguarded index `user_data.get("email_addresses")[0]` and crashes
with an unhandled IndexError (resp. TypeError) instead of treating the
condition as a guarded error; no explicit guard exists in the code. -/
theorem webhook_unguarded_email_index_crash :
    handle_webhook ⟨true, ⟨some "user.created", ⟨some "user_1", some [], none, none⟩⟩⟩ []
      = (WebhookResult.crash, []) ∧
    handle_webhook ⟨true, ⟨some "user.created", ⟨some "user_1", none, none, none⟩⟩⟩ []
      = (WebhookResult.crash, []) := by
  decide

/-- C5 evaluation: on a validly signed `user.created` event whose payload
lacks the required `id` field, the handler does not reject the request:
it reaches the upsert with `user_id = None` and commits a row whose `id`
is NULL, returning success. -/
theorem webhook_missing_id_not_rejected :
    handle_webhook ⟨true, ⟨some "user.created", ⟨none, some [⟨"a@example.com"⟩], none, none⟩⟩⟩ []
      = (WebhookResult.success, [⟨none, "a@example.com", none, none⟩]) := by
  decide

/-- C9: a validly signed event whose `type` is neither `user.created` nor
`user.updated` mutates nothing and still returns success. -/
theorem webhook_other_event_noop (payload : JsonPayload) (db : DB)
    (h1 : payload.type ≠ some "user.created") (h2 : payload.type ≠ some "user.updated") :
    handle_webhook ⟨true, payload⟩ db = (WebhookResult.success, db) := by
  have hev : isUserEvent payload.type = false := by
    cases ht : payload.type with
    | none => rfl
    | some t =>
        rw [ht] at h1 h2
        simp only [isUserEvent, Bool.or_eq_false_iff, beq_eq_false_iff_ne, ne_eq]
        exact ⟨fun hc => h1 (by rw [hc]), fun hc => h2 (by rw [hc])⟩
  simp [handle_webhook, hev]

/-- Witness for C9 at a concrete `session.created` event. -/
theorem webhook_other_event_noop_witness :
    (some "session.created" ≠ some "user.created") ∧
    (some "session.created" ≠ some "user.updated") ∧
    handle_webhook ⟨true, ⟨some "session.created", ⟨none, none, none, none⟩⟩⟩ []
      = (WebhookResult.success, []) :=
  ⟨by decide, by decide,
   webhook_other_event_noop ⟨some "session.created", ⟨none, none, none, none⟩⟩ []
     (by decide) (by decide)⟩

/-- C6: `GET /games/` returns the merge of every `games/*/data.json` file
in traversal order, later files overriding earlier ones on key collision,
seeded with the `__comment__` marker: the value of any key `k` is its
binding in the last file that defines it, else the seed's binding; in
particular with two subdirectories both defining "title", the returned
"title" is the one merged last. -/
theorem combined_json_merge (fs : GamesFS) (k : String) :
    (get_combined_json fs).get? k =
      (match lastWins (fs.map Prod.snd) k with
       | some v => some v
       | none => seedDict.get? k) ∧
    (get_combined_json
        [("alpha", [("title", Json.str "Alpha")]),
         ("beta", [("title", Json.str "Beta")])]).get? "title"
      = some (Json.str "Beta") :=
  ⟨get?_get_combined fs k, rfl⟩

/-- C7: `GET /games/{dir_name}` returns a 404 not-found error when
`games/{dir_name}/data.json` does not exist, and otherwise returns exactly
that file's parsed JSON contents (the handler is read-only by
construction). -/
theorem get_json_file_found_or_404 (dir_name : String) (fs : GamesFS) :
    ((∀ file ∈ fs, file.1 ≠ dir_name) → get_json_file dir_name fs = none) ∧
    ∀ d, (dir_name, d) ∈ fs → (fs.map Prod.fst).Nodup →
      get_json_file dir_name fs = some d := by
  constructor
  · intro habs
    have hfind : fs.find? (fun file => file.1 == dir_name) = none :=
      List.find?_eq_none.mpr (fun file hf => by simpa using habs file hf)
    simp [get_json_file, hfind]
  · intro d
    induction fs with
    | nil => intro hmem _; simp at hmem
    | cons file rest ih =>
        intro hmem hnodup
        rw [List.map_cons, List.nodup_cons] at hnodup
        rcases List.mem_cons.mp hmem with hmem1 | hmem2
        · cases hmem1.symm
          have hfind : ((dir_name, d) :: rest).find? (fun f => f.1 == dir_name)
              = some (dir_name, d) :=
            List.find?_cons_of_pos _ (by simp)
          simp [get_json_file, hfind]
        · by_cases hf : file.1 = dir_name
          · exfalso
            apply hnodup.1
            rw [hf]
            exact List.mem_map.mpr ⟨(dir_name, d), hmem2, rfl⟩
          · have hfind : (file :: rest).find? (fun f => f.1 == dir_name)
                = rest.find? (fun f => f.1 == dir_name) :=
              List.find?_cons_of_neg _ (by simp [hf])
            have hrest := ih hmem2 hnodup.2
            simp only [get_json_file, hfind]
            simpa [get_json_file] using hrest

/-- Witness for C7: a missing directory yields 404 and an existing one
returns its file's parsed contents. -/
theorem get_json_file_found_or_404_witness :
    get_json_file "zelda" [] = none ∧
    get_json_file "zelda" [("zelda", [("title", Json.str "Zelda")])]
      = some [("title", Json.str "Zelda")] :=
  ⟨(get_json_file_found_or_404 "zelda" []).1 (by simp),
   (get_json_file_found_or_404 "zelda" [("zelda", [("title", Json.str "Zelda")])]).2
     [("title", Json.str "Zelda")] (by simp) (by simp)⟩

/-- C8: `GET /user/{user_id}/data` leaves the database unchanged, returns
a 404 not-found error exactly when no row has the requested id (so when a
matching row exists the result is `some` response), and any returned
response is the flat four-field projection of a row of the table with
that id. -/
theorem get_user_data_found_or_404 (user_id : String) (db : DB) :
    (get_user_data user_id db).2 = db ∧
    ((get_user_data user_id db).1 = none ↔ ∀ r ∈ db, r.id ≠ some user_id) ∧
    ∀ resp, (get_user_data user_id db).1 = some resp →
      ∃ r, r ∈ db ∧ r.id = some user_id ∧
        resp = ⟨r.id, r.email, r.username, r.profile_picture_url⟩ := by
  cases hfind : db.find? (fun r => r.id == some user_id) with
  | none =>
      have habs : ∀ r ∈ db, r.id ≠ some user_id := by
        intro r hr
        have := List.find?_eq_none.mp hfind r hr
        simpa using this
      refine ⟨by simp [get_user_data, hfind], ?_, ?_⟩
      · exact iff_of_true (by simp [get_user_data, hfind]) habs
      · intro resp hresp
        simp [get_user_data, hfind] at hresp
  | some r =>
      have hmem : r ∈ db := List.mem_of_find?_eq_some hfind
      have hid : r.id = some user_id := by
        have := List.find?_some hfind
        simpa using this
      refine ⟨by simp [get_user_data, hfind], ?_, ?_⟩
      · exact iff_of_false (by simp [get_user_data, hfind])
          (fun habs => absurd hid (habs r hmem))
      · intro resp hresp
        simp only [get_user_data, hfind, Option.some.injEq] at hresp
        exact ⟨r, hmem, hid, hresp.symm⟩

/-- Witness for C8: lookup in the empty table is a 404, lookup of an
existing row returns exactly its four fields and leaves the table
unchanged. -/
theorem get_user_data_found_or_404_witness :
    (get_user_data "u9" []).1 = none ∧
    (get_user_data "u1" [⟨some "u1", "a@example.com", some "al", none⟩]).1
      = some ⟨some "u1", "a@example.com", some "al", none⟩ ∧
    (get_user_data "u1" [⟨some "u1", "a@example.com", some "al", none⟩]).2
      = [⟨some "u1", "a@example.com", some "al", none⟩] :=
  ⟨(get_user_data_found_or_404 "u9" []).2.1.mpr (by simp),
   by decide,
   (get_user_data_found_or_404 "u1" [⟨some "u1", "a@example.com", some "al", none⟩]).1⟩

/-- C10: the `__comment__` marker is seeded before the merge, so the key
is always present in the `GET /games/` result, but a `data.json` file
that itself binds `__comment__` overrides the fixed marker value: the
returned value is that of the last file binding the key, and only
defaults to the string "Combined data" when no file binds it. -/
theorem combined_json_comment_override (fs : GamesFS) :
    (get_combined_json fs).get? "__comment__" =
      some (match lastWins (fs.map Prod.snd) "__comment__" with
            | some v => v
            | none => Json.str "Combined data") ∧
    (get_combined_json [("gamma", [("__comment__", Json.str "overridden")])]).get? "__comment__"
      = some (Json.str "overridden") := by
  refine ⟨?_, rfl⟩
  rw [get?_get_combined]
  cases lastWins (fs.map Prod.snd) "__comment__" with
  | some v => rfl
  | none => rfl

end GamexBackend
